import Mathlib

/-!
Verification of the jacket-server color/effect extraction engine and mention
scanner, shallowly embedded from `color_parser.py` and the mention-scanning
loop of `app.py` (`get_color`).  Strings are modelled as Lean `String`
(lists of characters); the three regular expressions of the source
(`#([0-9A-Fa-f]{6})`, `rgb\s*\(\s*(\d+)\s*,\s*(\d+)\s*,\s*(\d+)\s*\)`, and the
tag-stripper `<[^>]+>`) are embedded as explicit leftmost-match scanners,
which is exactly the behaviour of `re.search`/`re.sub` on these patterns
(none of them requires backtracking: every quantified class is disjoint from
the character that follows it).
-/

namespace JacketServer

/-- RGB triples.  The source carries them as Python tuples of ints; values are
natural numbers (the regexes only ever capture non-negative decimals). -/
abbrev Rgb := Nat × Nat × Nat

/-- Character class `[0-9]` (`\d` of the source regex, on ASCII input). -/
def isDigitCh (c : Char) : Bool := 48 ≤ c.toNat && c.toNat ≤ 57

/-- Character class `\s` of the source regex (ASCII whitespace). -/
def isSpaceCh (c : Char) : Bool :=
  c = ' ' || c = '\t' || c = '\n' || c = '\r' || c.toNat = 11 || c.toNat = 12

/-- Character class `[0-9A-Fa-f]` of the hex regex. -/
def isHexDigitCh (c : Char) : Bool :=
  (48 ≤ c.toNat && c.toNat ≤ 57) || (65 ≤ c.toNat && c.toNat ≤ 70) ||
    (97 ≤ c.toNat && c.toNat ≤ 102)

/-- Value of one hex digit (`int(d, 16)` on a single `[0-9A-Fa-f]` char). -/
def hexVal (c : Char) : Nat :=
  if c.toNat ≤ 57 then c.toNat - 48
  else if c.toNat ≤ 70 then c.toNat - 55
  else c.toNat - 87

/-- Decimal value of a digit string (`int(...)` on a `\d+` capture). -/
def digitsToNat (l : List Char) : Nat :=
  l.foldl (fun acc c => 10 * acc + (c.toNat - 48)) 0

/-- Python's substring containment `needle in hay` on character lists. -/
def infixOf (needle : List Char) : List Char → Bool
  | [] => needle.isEmpty
  | c :: rest => needle.isPrefixOf (c :: rest) || infixOf needle rest

/-- Python `str.lower()` (ASCII letters; all palette and effect tokens are
ASCII). -/
def lowerStr (s : String) : String := ⟨s.data.map Char.toLower⟩

/-- Python's `f"{n:02x}"`: lowercase hex, zero-padded to a minimum width of
two digits.  Note it pads but never truncates: numbers above 255 render with
three or more digits.  (`Nat.toDigits 16` produces the lowercase hex digits
of `n`, most significant first, matching Python's `x` format.) -/
def fmt02x (n : Nat) : String :=
  let s := Nat.toDigits 16 n
  ⟨if s.length < 2 then '0' :: s else s⟩

/-- The `"#" + ''.join(f'{c:02x}' for c in rgb)` rendering used for every
`hex` (and hex-rule `name`) field in `extract_color`. -/
def hexStr (rgb : Rgb) : String :=
  "#" ++ fmt02x rgb.1 ++ fmt02x rgb.2.1 ++ fmt02x rgb.2.2

/-- The `f"rgb{rgb}"` rendering of the rgb-rule `name` field: Python prints a
triple as `(r, g, b)`. -/
def rgbName (rgb : Rgb) : String :=
  "rgb(" ++ toString rgb.1 ++ ", " ++ toString rgb.2.1 ++ ", " ++
    toString rgb.2.2 ++ ")"

/-- Match of `#([0-9A-Fa-f]{6})` anchored at the head of the list, returning
the three byte groups (`parse_hex_color`'s captured value). -/
def matchHexAt : List Char → Option Rgb
  | c :: d1 :: d2 :: d3 :: d4 :: d5 :: d6 :: _ =>
    if c = '#' && isHexDigitCh d1 && isHexDigitCh d2 && isHexDigitCh d3 &&
        isHexDigitCh d4 && isHexDigitCh d5 && isHexDigitCh d6 then
      some (16 * hexVal d1 + hexVal d2, 16 * hexVal d3 + hexVal d4,
        16 * hexVal d5 + hexVal d6)
    else none
  | _ => none

/-- Leftmost `re.search` of the hex pattern: try each start position in
order. -/
def findHex : List Char → Option Rgb
  | [] => none
  | c :: rest =>
    match matchHexAt (c :: rest) with
    | some v => some v
    | none => findHex rest

/-- `parse_hex_color`: extract a `#rrggbb` hex color from anywhere in the
text. -/
def parse_hex_color (text : String) : Option Rgb := findHex text.data

/-- Drop the `\s*` of the rgb regex. -/
def skipSpaces (l : List Char) : List Char := l.dropWhile isSpaceCh

/-- Read the `(\d+)` of the rgb regex: at least one digit, greedily. -/
def readNat (l : List Char) : Option (Nat × List Char) :=
  let ds := l.takeWhile isDigitCh
  if ds.isEmpty then none else some (digitsToNat ds, l.drop ds.length)

/-- Expect one literal character. -/
def expectCh (c : Char) : List Char → Option (List Char)
  | [] => none
  | d :: rest => if d = c then some rest else none

/-- Match of `rgb\s*\(\s*(\d+)\s*,\s*(\d+)\s*,\s*(\d+)\s*\)` (with
`re.IGNORECASE`) anchored at the head of the list. -/
def matchRgbAt : List Char → Option Rgb
  | r :: g :: b :: rest =>
    if r.toLower = 'r' && g.toLower = 'g' && b.toLower = 'b' then
      match expectCh '(' (skipSpaces rest) with
      | none => none
      | some l1 =>
        match readNat (skipSpaces l1) with
        | none => none
        | some (n1, l2) =>
          match expectCh ',' (skipSpaces l2) with
          | none => none
          | some l3 =>
            match readNat (skipSpaces l3) with
            | none => none
            | some (n2, l4) =>
              match expectCh ',' (skipSpaces l4) with
              | none => none
              | some l5 =>
                match readNat (skipSpaces l5) with
                | none => none
                | some (n3, l6) =>
                  match expectCh ')' (skipSpaces l6) with
                  | none => none
                  | some _ => some (n1, n2, n3)
    else none
  | _ => none

/-- Leftmost `re.search` of the rgb pattern. -/
def findRgb : List Char → Option Rgb
  | [] => none
  | c :: rest =>
    match matchRgbAt (c :: rest) with
    | some v => some v
    | none => findRgb rest

/-- `parse_rgb_color`: extract an `rgb(r, g, b)` functional color from
anywhere in the text.  The captured integers are returned verbatim: the
source performs no range validation. -/
def parse_rgb_color (text : String) : Option Rgb := findRgb text.data

/-- `COLOR_MAP` in its source (insertion) order. -/
def COLOR_MAP : List (String × Rgb) :=
  [("red", (255, 0, 0)),
   ("orange", (255, 165, 0)),
   ("yellow", (255, 255, 0)),
   ("chartreuse", (127, 255, 0)),
   ("green", (0, 128, 0)),
   ("spring", (0, 255, 127)),
   ("cyan", (0, 255, 255)),
   ("azure", (0, 127, 255)),
   ("blue", (0, 0, 255)),
   ("violet", (138, 43, 226)),
   ("magenta", (255, 0, 255)),
   ("rose", (255, 20, 147)),
   ("pink", (255, 192, 203)),
   ("purple", (128, 0, 128)),
   ("indigo", (75, 0, 130)),
   ("turquoise", (64, 224, 208)),
   ("lime", (0, 255, 0)),
   ("amber", (255, 191, 0)),
   ("coral", (255, 127, 80)),
   ("salmon", (250, 128, 114)),
   ("white", (255, 255, 255)),
   ("black", (0, 0, 0)),
   ("gray", (128, 128, 128)),
   ("grey", (128, 128, 128))]

/-- `sorted(COLOR_MAP.items(), key=lambda x: len(x[0]), reverse=True)`:
a stable length-descending sort of the palette.  Python's `sorted` is stable
and dict iteration follows insertion order, so equal-length names keep the
`COLOR_MAP` order; `insertionSort` with this total preorder is also stable,
hence computes the same list. -/
def sortedColors : List (String × Rgb) :=
  List.insertionSort (fun a b => b.1.length ≤ a.1.length) COLOR_MAP

/-- `find_color_name`: case-insensitive unanchored substring search for a
palette name, longest names first. -/
def find_color_name (text : String) : Option (String × Rgb) :=
  sortedColors.find? (fun p => infixOf p.1.data (lowerStr text).data)

/-- The color descriptor dictionaries built by `extract_color`. -/
structure ColorDescriptor where
  name : String
  rgb : Rgb
  hex : String
deriving DecidableEq

/-- `extract_color`: hex rule first, then functional rgb, then palette name;
empty text short-circuits to `none` (`if not text`). -/
def extract_color (text : String) : Option ColorDescriptor :=
  if text = "" then none
  else
    match parse_hex_color text with
    | some rgb => some { name := hexStr rgb, rgb := rgb, hex := hexStr rgb }
    | none =>
      match parse_rgb_color text with
      | some rgb => some { name := rgbName rgb, rgb := rgb, hex := hexStr rgb }
      | none =>
        match find_color_name text with
        | some (n, rgb) => some { name := n, rgb := rgb, hex := hexStr rgb }
        | none => none

/-- `get_default_color`. -/
def get_default_color : ColorDescriptor :=
  { name := "white", rgb := (255, 255, 255), hex := "#ffffff" }

/-- `EFFECTS`, written in the order of the source's set literal.  (Python
iterates a `set` in an unspecified, hash-dependent order; only the element
lengths matter to `extract_effect`'s sort, and no claim depends on the order
of equal-length keywords, so this model fixes the literal's order.) -/
def EFFECTS : List String :=
  ["fade", "wipe_down", "wipe_up", "wipe_left", "wipe_right",
   "chase_down", "chase_up", "chase_spiral", "dissolve", "expand",
   "colour_stack", "colour_rain", "colour_trail", "colour_waterfall",
   "colour_wave", "colour_spiral"]

/-- `sorted(EFFECTS, key=len, reverse=True)`: stable length-descending sort
of the effect vocabulary. -/
def sortedEffects : List String :=
  List.insertionSort (fun a b => b.length ≤ a.length) EFFECTS

/-- `effect.replace("_", " ")`: the spaced surface form of a keyword. -/
def underscoreToSpace (s : String) : String :=
  ⟨s.data.map (fun c => if c = '_' then ' ' else c)⟩

/-- `extract_effect`: case-insensitive substring search for an effect
keyword, longest first, accepting the underscored literal or its spaced
form, returning the canonical underscored keyword. -/
def extract_effect (text : String) : Option String :=
  if text = "" then none
  else
    sortedEffects.find? (fun e =>
      infixOf e.data (lowerStr text).data ||
        infixOf (underscoreToSpace e).data (lowerStr text).data)

/-- Calling `extract_color` with a possibly-absent argument: the
`if not text` guard of the source sends an absent (`None`) argument to the
same immediate `None` return as the empty string. -/
def extract_colorOpt : Option String → Option ColorDescriptor
  | none => none
  | some t => extract_color t

/-- Calling `extract_effect` with a possibly-absent argument; same guard. -/
def extract_effectOpt : Option String → Option String
  | none => none
  | some t => extract_effect t

/-- `re.sub(r"<[^>]+>", "", text)`: remove every leftmost, non-overlapping
`<`, one-or-more non-`>` characters, `>` group.  At a `<`, the stretch up to
the first following `>` is `takeWhile (· != '>')`; a tag is removed exactly
when that stretch is non-empty and a `>` actually follows. -/
def stripTagsFuel : Nat → List Char → List Char
  | _, [] => []
  | 0, l => l
  | fuel + 1, c :: rest =>
    let pre := rest.takeWhile (fun d => d != '>')
    if c = '<' && !pre.isEmpty && !(rest.drop pre.length).isEmpty then
      stripTagsFuel fuel ((rest.drop pre.length).drop 1)
    else c :: stripTagsFuel fuel rest

/-- `re.sub` of the tag pattern over a whole character list.  Every step of
`stripTagsFuel` strictly shortens the list, so `l.length` fuel always
suffices and the `0` fuel case is never reached. -/
def stripTags (l : List Char) : List Char := stripTagsFuel l.length l

/-- Tag stripping on strings (`app.py` applies it to each mention's text
before any matching). -/
def stripTagsStr (s : String) : String := ⟨stripTags s.data⟩

/-- A mention record; only `text` matters to the scanner, the other fields
are passed through. -/
structure Mention where
  text : String
  id : String
  account : String
  created_at : String
deriving DecidableEq

/-- The cleaned mention dictionary returned by `get_color`: the stripped
text together with the original `id`, `account`, `created_at`. -/
def cleanMention (m : Mention) : Mention :=
  { m with text := stripTagsStr m.text }

/-- The three distinguishable outcomes of the scanning loop of `get_color`:
a winning mention with its color and effect, the empty-sequence fallback
("No mentions found"), or the exhausted-scan fallback ("No color found in
recent mentions") carrying `mentions_checked`. -/
inductive ScanResult where
  | found (color : ColorDescriptor) (effect : Option String) (mention : Mention)
  | noMentions
  | noColorFound (checked : Nat)
deriving DecidableEq

/-- The `color` field of the JSON response: the found color, or the default
in either fallback. -/
def ScanResult.color : ScanResult → ColorDescriptor
  | .found c _ _ => c
  | .noMentions => get_default_color
  | .noColorFound _ => get_default_color

/-- The `effect` field of the JSON response: `None` in either fallback. -/
def ScanResult.effect : ScanResult → Option String
  | .found _ e _ => e
  | .noMentions => none
  | .noColorFound _ => none

/-- The `for mention in mentions:` loop body of `get_color`: strip tags,
try `extract_color`, and on success return it with `extract_effect` of the
same cleaned text and the cleaned mention. -/
def scanGo : List Mention → Option (ColorDescriptor × Option String × Mention)
  | [] => none
  | m :: rest =>
    let text := stripTagsStr m.text
    match extract_color text with
    | some c => some (c, extract_effect text, cleanMention m)
    | none => scanGo rest

/-- The mention scanner of `get_color` (`app.py`): empty input returns the
"no mentions" fallback, a winning mention returns `found`, an exhausted scan
returns "no color found" with the number of mentions checked. -/
def scan : List Mention → ScanResult
  | [] => .noMentions
  | m :: rest =>
    match scanGo (m :: rest) with
    | some (c, e, mm) => .found c e mm
    | none => .noColorFound (m :: rest).length

/-- A componentwise `[0, 255]` bound on an rgb triple. -/
def inByte (rgb : Rgb) : Prop :=
  rgb.1 ≤ 255 ∧ rgb.2.1 ≤ 255 ∧ rgb.2.2 ≤ 255

instance : DecidablePred inByte := fun rgb =>
  inferInstanceAs (Decidable (rgb.1 ≤ 255 ∧ rgb.2.1 ≤ 255 ∧ rgb.2.2 ≤ 255))

/-- The entries of `sortedColors` that are tried before `("gray", ...)`:
every palette name of length five or more, then the equal-length (four)
names that precede "gray" in `COLOR_MAP`'s insertion order. -/
def grayPredecessors : List (String × Rgb) :=
  [("chartreuse", (127, 255, 0)),
   ("turquoise", (64, 224, 208)),
   ("magenta", (255, 0, 255)),
   ("orange", (255, 165, 0)),
   ("yellow", (255, 255, 0)),
   ("spring", (0, 255, 127)),
   ("violet", (138, 43, 226)),
   ("purple", (128, 0, 128)),
   ("indigo", (75, 0, 130)),
   ("salmon", (250, 128, 114)),
   ("green", (0, 128, 0)),
   ("azure", (0, 127, 255)),
   ("amber", (255, 191, 0)),
   ("coral", (255, 127, 80)),
   ("white", (255, 255, 255)),
   ("black", (0, 0, 0)),
   ("cyan", (0, 255, 255)),
   ("blue", (0, 0, 255)),
   ("rose", (255, 20, 147)),
   ("pink", (255, 192, 203)),
   ("lime", (0, 255, 0))]

/-! ## Auxiliary lemmas -/

/-- A `find?` over a list sorted by a non-increasing measure returns an
element whose measure dominates every matching element of the list. -/
theorem find?_max_of_sorted {α : Type} (p : α → Bool) (f : α → Nat) :
    ∀ l : List α, l.Pairwise (fun a b => f b ≤ f a) →
      ∀ x, l.find? p = some x → ∀ y ∈ l, p y = true → f y ≤ f x := by
  intro l
  induction l with
  | nil => intro _ x hx; simp [List.find?] at hx
  | cons a t ih =>
    intro hp x hx y hy hpy
    rcases List.pairwise_cons.mp hp with ⟨ha, ht⟩
    by_cases hpa : p a = true
    · rw [List.find?_cons_of_pos _ hpa] at hx
      have hax : a = x := Option.some.inj hx
      rcases List.mem_cons.mp hy with rfl | hyt
      · exact hax ▸ le_refl _
      · exact hax ▸ ha y hyt
    · rw [List.find?_cons_of_neg _ hpa] at hx
      rcases List.mem_cons.mp hy with rfl | hyt
      · exact absurd hpy hpa
      · exact ih ht x hx y hyt hpy

/-- `find?` over a list split around the first matching element. -/
theorem find?_eq_some_of_split {α : Type} (p : α → Bool) (l1 l2 : List α)
    (x : α) (h1 : ∀ y ∈ l1, p y = false) (h2 : p x = true) :
    (l1 ++ x :: l2).find? p = some x := by
  induction l1 with
  | nil => rw [List.nil_append]; exact List.find?_cons_of_pos _ h2
  | cons a t ih =>
    have hpa : ¬ p a = true := by simp [h1 a (List.mem_cons_self a t)]
    rw [List.cons_append, List.find?_cons_of_neg _ hpa]
    exact ih (fun y hy => h1 y (List.mem_cons_of_mem a hy))

/-- Every hex digit has value at most 15. -/
theorem hexVal_le_of_isHexDigitCh {c : Char} (h : isHexDigitCh c = true) :
    hexVal c ≤ 15 := by
  simp only [isHexDigitCh, Bool.or_eq_true, Bool.and_eq_true,
    decide_eq_true_eq] at h
  unfold hexVal
  split <;> [skip; split] <;> omega

/-- A head match of the hex pattern yields three byte-sized components. -/
theorem matchHexAt_inByte :
    ∀ l r, matchHexAt l = some r → inByte r := by
  intro l r h
  unfold matchHexAt at h
  split at h
  · rename_i c d1 d2 d3 d4 d5 d6 rest
    split at h
    · rename_i hcond
      simp only [Bool.and_eq_true] at hcond
      obtain ⟨⟨⟨⟨⟨⟨_, h1⟩, h2⟩, h3⟩, h4⟩, h5⟩, h6⟩ := hcond
      have b1 := hexVal_le_of_isHexDigitCh h1
      have b2 := hexVal_le_of_isHexDigitCh h2
      have b3 := hexVal_le_of_isHexDigitCh h3
      have b4 := hexVal_le_of_isHexDigitCh h4
      have b5 := hexVal_le_of_isHexDigitCh h5
      have b6 := hexVal_le_of_isHexDigitCh h6
      cases h
      refine ⟨by omega, ?_, ?_⟩
      · show 16 * hexVal d3 + hexVal d4 ≤ 255
        omega
      · show 16 * hexVal d5 + hexVal d6 ≤ 255
        omega
    · exact absurd h (by simp)
  · exact absurd h (by simp)

/-- Any hex-rule capture is byte-bounded. -/
theorem findHex_inByte : ∀ l r, findHex l = some r → inByte r := by
  intro l
  induction l with
  | nil => intro r h; simp [findHex] at h
  | cons c rest ih =>
    intro r h
    unfold findHex at h
    rcases hm : matchHexAt (c :: rest) with _ | v
    · rw [hm] at h; exact ih r h
    · rw [hm] at h; exact Option.some.inj h ▸ matchHexAt_inByte _ _ hm

/-- Every palette entry is byte-bounded. -/
theorem COLOR_MAP_inByte : ∀ p ∈ COLOR_MAP, inByte p.2 := by decide

/-- A name found by `find_color_name` is a palette entry. -/
theorem find_color_name_mem {t : String} {pr : String × Rgb}
    (h : find_color_name t = some pr) : pr ∈ COLOR_MAP := by
  have hsub : ∀ x ∈ sortedColors, x ∈ COLOR_MAP := by decide
  exact hsub pr (List.mem_of_find?_eq_some h)

/-- A prefix of mentions without a color does not affect the scanning
loop. -/
theorem scanGo_append_of_none :
    ∀ (pre rest : List Mention),
      (∀ m' ∈ pre, extract_color (stripTagsStr m'.text) = none) →
      scanGo (pre ++ rest) = scanGo rest := by
  intro pre
  induction pre with
  | nil => intro rest _; rfl
  | cons a t ih =>
    intro rest hpre
    have ha : extract_color (stripTagsStr a.text) = none :=
      hpre a (List.mem_cons_self a t)
    have ht := ih rest (fun m' hm' => hpre m' (List.mem_cons_of_mem a hm'))
    simpa [scanGo, ha] using ht

/-- A mention with a color stops the scanning loop at once. -/
theorem scanGo_cons_some (m : Mention) (rest : List Mention)
    (c : ColorDescriptor) (h : extract_color (stripTagsStr m.text) = some c) :
    scanGo (m :: rest) =
      some (c, extract_effect (stripTagsStr m.text), cleanMention m) := by
  simp [scanGo, h]

/-- If no mention has a color, the scanning loop finds nothing. -/
theorem scanGo_eq_none :
    ∀ l : List Mention,
      (∀ m ∈ l, extract_color (stripTagsStr m.text) = none) →
      scanGo l = none := by
  intro l
  induction l with
  | nil => intro _; rfl
  | cons a t ih =>
    intro hall
    have ha : extract_color (stripTagsStr a.text) = none :=
      hall a (List.mem_cons_self a t)
    simpa [scanGo, ha] using ih (fun m hm => hall m (List.mem_cons_of_mem a hm))

/-- Whatever the scanning loop returns comes from some mention of the list,
carries that mention's cleaned text, and its color and effect were both
extracted from that cleaned text. -/
theorem scanGo_found :
    ∀ (l : List Mention) (c : ColorDescriptor) (e : Option String)
      (m : Mention), scanGo l = some (c, e, m) →
      ∃ m₀ ∈ l, m = cleanMention m₀ ∧
        extract_color (stripTagsStr m₀.text) = some c ∧
        e = extract_effect (stripTagsStr m₀.text) := by
  intro l
  induction l with
  | nil => intro c e m h; simp [scanGo] at h
  | cons a t ih =>
    intro c e m h
    rcases hx : extract_color (stripTagsStr a.text) with _ | c0
    · simp only [scanGo, hx] at h
      obtain ⟨m₀, hm₀, hrest⟩ := ih c e m h
      exact ⟨m₀, List.mem_cons_of_mem a hm₀, hrest⟩
    · simp only [scanGo, hx, Option.some.injEq, Prod.mk.injEq] at h
      obtain ⟨hc, he, hm⟩ := h
      exact ⟨a, List.mem_cons_self a t, hm.symm, hc ▸ hx, he.symm⟩

/-! ## Claims -/

/-- C1: `extract_color` attempts hex, then functional rgb, then palette
name, in that fixed order; the first matching rule produces the result and
later rules are not attempted, and the result is `none` exactly when none of
the three patterns matches.  In particular a text with a 6-digit hex code
yields the hex descriptor even when color names are present, and a text with
`rgb(1,2,3)` and the word "red" yields the rgb descriptor. -/
theorem C1_priority_order :
    (∀ text : String, extract_color text = none ↔
      (parse_hex_color text = none ∧ parse_rgb_color text = none ∧
        find_color_name text = none))
    ∧ (∀ (text : String) (rgb : Rgb), parse_hex_color text = some rgb →
        extract_color text =
          some { name := hexStr rgb, rgb := rgb, hex := hexStr rgb })
    ∧ (∀ (text : String) (rgb : Rgb), parse_hex_color text = none →
        parse_rgb_color text = some rgb →
        extract_color text =
          some { name := rgbName rgb, rgb := rgb, hex := hexStr rgb })
    ∧ extract_color "the #AABBCC one is red" =
        some { name := "#aabbcc", rgb := (170, 187, 204), hex := "#aabbcc" }
    ∧ extract_color "rgb(1,2,3) and red" =
        some { name := "rgb(1, 2, 3)", rgb := (1, 2, 3), hex := "#010203" } := by
  refine ⟨?_, ?_, ?_, by decide, by decide⟩
  · intro text
    by_cases he : text = ""
    · subst he; decide
    · rcases hh : parse_hex_color text with _ | r
      · rcases hr : parse_rgb_color text with _ | r
        · rcases hn : find_color_name text with _ | p
          · simp [extract_color, he, hh, hr, hn]
          · obtain ⟨n, rgb⟩ := p
            simp [extract_color, he, hh, hr, hn]
        · simp [extract_color, he, hh, hr]
      · simp [extract_color, he, hh]
  · intro text rgb h
    have he : text ≠ "" := by
      intro hx; subst hx
      exact absurd h (by simp [(by decide : parse_hex_color "" = none)])
    simp [extract_color, he, h]
  · intro text rgb h1 h2
    have he : text ≠ "" := by
      intro hx; subst hx
      exact absurd h2 (by simp [(by decide : parse_rgb_color "" = none)])
    simp [extract_color, he, h1, h2]

/-- Witness for C1 at the concrete input `"#010203"`. -/
theorem C1_priority_order_w :
    parse_hex_color "#010203" = some (1, 2, 3) ∧
    extract_color "#010203" =
      some { name := hexStr (1, 2, 3), rgb := (1, 2, 3),
             hex := hexStr (1, 2, 3) } :=
  ⟨by decide, C1_priority_order.2.1 "#010203" (1, 2, 3) (by decide)⟩

/-- C3: palette-name matching is a case-insensitive unanchored substring
search tried longest-name-first, so whenever several palette names occur as
substrings the returned one has maximal length; in particular
`extract_color "spring green"` returns "spring", not "green". -/
theorem C3_longest_name_wins :
    (∀ (text n : String) (rgb : Rgb),
      find_color_name text = some (n, rgb) →
        (n, rgb) ∈ COLOR_MAP ∧
        infixOf n.data (lowerStr text).data = true ∧
        ∀ p ∈ COLOR_MAP, infixOf p.1.data (lowerStr text).data = true →
          p.1.length ≤ n.length)
    ∧ extract_color "spring green" =
        some { name := "spring", rgb := (0, 255, 127), hex := "#00ff7f" }
    ∧ extract_color "Spring Green" =
        some { name := "spring", rgb := (0, 255, 127), hex := "#00ff7f" } := by
  refine ⟨?_, by decide, by decide⟩
  intro text n rgb h
  refine ⟨find_color_name_mem h, ?_, ?_⟩
  · unfold find_color_name at h
    have hp := List.find?_some h
    simpa using hp
  · intro p hp hinf
    unfold find_color_name at h
    have hsorted : sortedColors.Pairwise
        (fun a b => (fun q : String × Rgb => q.1.length) b ≤
          (fun q : String × Rgb => q.1.length) a) := by decide
    exact find?_max_of_sorted _ (fun q : String × Rgb => q.1.length)
      sortedColors hsorted (n, rgb) h p
      ((by decide : ∀ x ∈ COLOR_MAP, x ∈ sortedColors) p hp) hinf

/-- Witness for C3 at the concrete input `"spring green"`. -/
theorem C3_longest_name_wins_w :
    ("spring", ((0, 255, 127) : Rgb)) ∈ COLOR_MAP ∧
    infixOf "spring".data (lowerStr "spring green").data = true := by
  have h := C3_longest_name_wins.1 "spring green" "spring" (0, 255, 127)
    (by decide)
  exact ⟨h.1, h.2.1⟩

/-- C5: `extract_effect` searches the 16-keyword vocabulary
case-insensitively, longest keyword first, matching either the underscored
literal or its spaced form and always returning the canonical underscored
keyword. -/
theorem C5_effect_longest_first :
    extract_effect "wipe down" = some "wipe_down"
    ∧ extract_effect "wipe_down" = some "wipe_down"
    ∧ extract_effect "chase_spiral" = some "chase_spiral"
    ∧ extract_effect "WIPE Down" = some "wipe_down"
    ∧ (∀ text e : String, extract_effect text = some e →
        e ∈ EFFECTS ∧
        (infixOf e.data (lowerStr text).data = true ∨
          infixOf (underscoreToSpace e).data (lowerStr text).data = true) ∧
        ∀ e' ∈ EFFECTS,
          (infixOf e'.data (lowerStr text).data = true ∨
            infixOf (underscoreToSpace e').data (lowerStr text).data = true) →
          e'.length ≤ e.length) := by
  refine ⟨by decide, by decide, by decide, by decide, ?_⟩
  intro text e h
  by_cases he : text = ""
  · subst he
    exact absurd h (by simp [extract_effect])
  · rw [extract_effect, if_neg he] at h
    refine ⟨?_, ?_, ?_⟩
    · exact (by decide : ∀ x ∈ sortedEffects, x ∈ EFFECTS) e
        (List.mem_of_find?_eq_some h)
    · simpa [Bool.or_eq_true] using List.find?_some h
    · intro e' he' hinf
      have hsorted : sortedEffects.Pairwise
          (fun a b => (fun s : String => s.length) b ≤
            (fun s : String => s.length) a) := by decide
      refine find?_max_of_sorted _ (fun s : String => s.length)
        sortedEffects hsorted e h e'
        ((by decide : ∀ x ∈ EFFECTS, x ∈ sortedEffects) e' he') ?_
      simpa [Bool.or_eq_true] using hinf

/-- Witness for C5 at the concrete input `"fade it"`. -/
theorem C5_effect_longest_first_w :
    "fade" ∈ EFFECTS ∧
    (infixOf "fade".data (lowerStr "fade it").data = true ∨
      infixOf (underscoreToSpace "fade").data (lowerStr "fade it").data =
        true) := by
  have h := C5_effect_longest_first.2.2.2.2 "fade it" "fade" (by decide)
  exact ⟨h.1, h.2.1⟩

/-- C2: the first mention (in iteration order) whose cleaned text yields a
color wins: the scan returns that mention's color, the effect extracted from
the same cleaned text, and the cleaned mention itself; later mentions are
never the result.  In particular scanning "hello" / "make it purple" /
"yellow" yields the purple mention. -/
theorem C2_first_mention_wins :
    (∀ (pre post : List Mention) (m : Mention) (c : ColorDescriptor),
      (∀ m' ∈ pre, extract_color (stripTagsStr m'.text) = none) →
      extract_color (stripTagsStr m.text) = some c →
      scan (pre ++ m :: post) =
        ScanResult.found c (extract_effect (stripTagsStr m.text))
          (cleanMention m))
    ∧ scan [⟨"hello", "1", "a", "t1"⟩, ⟨"make it purple", "2", "b", "t2"⟩,
        ⟨"yellow", "3", "c", "t3"⟩] =
      ScanResult.found
        { name := "purple", rgb := (128, 0, 128), hex := "#800080" } none
        ⟨"make it purple", "2", "b", "t2"⟩ := by
  refine ⟨?_, by decide⟩
  intro pre post m c hpre hm
  have hgo : scanGo (pre ++ m :: post) =
      some (c, extract_effect (stripTagsStr m.text), cleanMention m) := by
    rw [scanGo_append_of_none pre (m :: post) hpre]
    exact scanGo_cons_some m post c hm
  obtain ⟨a, t, hat⟩ : ∃ a t, pre ++ m :: post = a :: t := by
    cases pre with
    | nil => exact ⟨m, post, rfl⟩
    | cons a t => exact ⟨a, t ++ m :: post, rfl⟩
  rw [hat] at hgo
  rw [hat]
  simp [scan, hgo]

/-- Witness for C2 with a colorless first mention and a winning second. -/
theorem C2_first_mention_wins_w :
    scan [⟨"zzz", "0", "x", "t0"⟩, ⟨"go blue", "9", "u", "t9"⟩] =
      ScanResult.found
        { name := "blue", rgb := (0, 0, 255), hex := hexStr (0, 0, 255) }
        (extract_effect (stripTagsStr "go blue"))
        (cleanMention ⟨"go blue", "9", "u", "t9"⟩) :=
  C2_first_mention_wins.1 [⟨"zzz", "0", "x", "t0"⟩] []
    ⟨"go blue", "9", "u", "t9"⟩
    { name := "blue", rgb := (0, 0, 255), hex := hexStr (0, 0, 255) }
    (by decide) (by decide)

/-- C6: an empty mention sequence yields the "no mentions" outcome and a
colorless scan yields the "no color found" outcome with the number of
mentions examined; both carry the default white color and no effect, and
neither is an error (both are ordinary `ScanResult` values). -/
theorem C6_default_fallbacks :
    scan [] = ScanResult.noMentions
    ∧ (scan []).color = get_default_color
    ∧ (scan []).effect = none
    ∧ (∀ mentions : List Mention, mentions ≠ [] →
        (∀ m ∈ mentions, extract_color (stripTagsStr m.text) = none) →
        scan mentions = ScanResult.noColorFound mentions.length ∧
        (scan mentions).color = get_default_color ∧
        (scan mentions).effect = none) := by
  refine ⟨rfl, rfl, rfl, ?_⟩
  intro mentions hne hall
  have hgo := scanGo_eq_none mentions hall
  have hs : scan mentions = ScanResult.noColorFound mentions.length := by
    cases mentions with
    | nil => exact absurd rfl hne
    | cons a t => simp [scan, hgo]
  exact ⟨hs, by rw [hs]; rfl, by rw [hs]; rfl⟩

/-- Witness for C6 at a one-mention colorless sequence. -/
theorem C6_default_fallbacks_w :
    scan [⟨"hello", "1", "a", "t1"⟩] = ScanResult.noColorFound 1 ∧
    (scan [⟨"hello", "1", "a", "t1"⟩]).color = get_default_color ∧
    (scan [⟨"hello", "1", "a", "t1"⟩]).effect = none :=
  C6_default_fallbacks.2.2.2 [⟨"hello", "1", "a", "t1"⟩] (by decide)
    (by decide)

/-- C7: each mention's text has every `<...>` tag substring removed before
any matching (generic tag removal, no entity decoding), and a found result's
mention carries the cleaned text, with color and effect both extracted from
that cleaned text. -/
theorem C7_markup_stripped :
    stripTagsStr "<p>Hello <strong>world</strong>!</p>" = "Hello world!"
    ∧ stripTagsStr "a &amp; b" = "a &amp; b"
    ∧ (∀ (mentions : List Mention) (c : ColorDescriptor)
        (e : Option String) (m : Mention),
        scan mentions = ScanResult.found c e m →
        m ∈ mentions.map cleanMention ∧
        extract_color m.text = some c ∧ e = extract_effect m.text) := by
  refine ⟨by decide, by decide, ?_⟩
  intro mentions c e m h
  cases mentions with
  | nil => simp [scan] at h
  | cons a t =>
    rcases hgo : scanGo (a :: t) with _ | x
    · simp only [scan, hgo] at h
      exact ScanResult.noConfusion h
    · obtain ⟨c0, e0, m0⟩ := x
      simp only [scan, hgo, ScanResult.found.injEq] at h
      obtain ⟨hc, he, hm⟩ := h
      obtain ⟨m₀, hmem, hclean, hcol, heff⟩ := scanGo_found (a :: t) c0 e0 m0 hgo
      refine ⟨?_, ?_, ?_⟩
      · rw [← hm, hclean]
        exact List.mem_map_of_mem cleanMention hmem
      · rw [← hm, hclean]
        exact hc ▸ hcol
      · rw [← hm, hclean, ← he]
        exact heff

/-- Witness for C7: a winning mention whose text was wrapped in tags. -/
theorem C7_markup_stripped_w :
    (⟨"red", "5", "z", "t5"⟩ : Mention) ∈
      ([⟨"<b>red</b>", "5", "z", "t5"⟩] : List Mention).map cleanMention ∧
    extract_color (Mention.text ⟨"red", "5", "z", "t5"⟩) =
      some { name := "red", rgb := (255, 0, 0), hex := "#ff0000" } ∧
    (none : Option String) =
      extract_effect (Mention.text ⟨"red", "5", "z", "t5"⟩) :=
  C7_markup_stripped.2.2 [⟨"<b>red</b>", "5", "z", "t5"⟩]
    { name := "red", rgb := (255, 0, 0), hex := "#ff0000" } none
    ⟨"red", "5", "z", "t5"⟩ (by decide)

/-- C4 (counterexample): the functional-RGB rule performs no clamping at
all.  On `"rgb(300,0,0)"` the returned descriptor carries the out-of-range
component 300 verbatim, and its hex field `"#12c0000"` is the unclamped
(three-digit) rendering of 300, not a byte-clamped `#rrggbb` encoding. -/
theorem C4_clamping_cex :
    extract_color "rgb(300,0,0)" =
      some { name := "rgb(300, 0, 0)", rgb := (300, 0, 0),
             hex := "#12c0000" }
    ∧ ¬ inByte (300, 0, 0) := by
  exact ⟨by decide, by decide⟩

/-- C4 (amended): every descriptor's `hex` is `"#"` followed by each rgb
component rendered in lowercase hex padded to a minimum of two digits; the
hex rule copies its (always byte-bounded) capture, the palette rule returns
byte-bounded palette values, but the functional-RGB rule passes the three
captured integers through verbatim with no clamping, so only the hex and
name rules guarantee components in `[0, 255]`. -/
theorem C4_descriptor_hex_consistency :
    ∀ (text : String) (d : ColorDescriptor), extract_color text = some d →
      d.hex = hexStr d.rgb
      ∧ (∀ r : Rgb, parse_hex_color text = some r → d.rgb = r ∧ inByte d.rgb)
      ∧ (parse_hex_color text = none →
          ∀ r : Rgb, parse_rgb_color text = some r → d.rgb = r)
      ∧ (parse_hex_color text = none → parse_rgb_color text = none →
          inByte d.rgb) := by
  intro text d hd
  by_cases he : text = ""
  · subst he
    rw [(by decide : extract_color "" = (none : Option ColorDescriptor))]
      at hd
    exact Option.noConfusion hd
  · unfold extract_color at hd
    rw [if_neg he] at hd
    rcases hh : parse_hex_color text with _ | r
    · rcases hr : parse_rgb_color text with _ | r
      · rcases hn : find_color_name text with _ | p
        · simp only [hh, hr, hn] at hd
          exact Option.noConfusion hd
        · obtain ⟨n, rgb⟩ := p
          simp only [hh, hr, hn] at hd
          have hd' : d = { name := n, rgb := rgb, hex := hexStr rgb } :=
            (Option.some.inj hd).symm
          subst hd'
          refine ⟨rfl, ?_, ?_, ?_⟩
          · intro r hr'; exact Option.noConfusion hr'
          · intro _ r hr'; exact Option.noConfusion hr'
          · intro _ _
            exact COLOR_MAP_inByte (n, rgb) (find_color_name_mem hn)
      · simp only [hh, hr] at hd
        have hd' : d = { name := rgbName r, rgb := r, hex := hexStr r } :=
          (Option.some.inj hd).symm
        subst hd'
        refine ⟨rfl, ?_, ?_, ?_⟩
        · intro r' hr'; exact Option.noConfusion hr'
        · intro _ r' hr'
          exact Option.some.inj hr'
        · intro _ hrn; exact Option.noConfusion hrn
    · simp only [hh] at hd
      have hd' : d = { name := hexStr r, rgb := r, hex := hexStr r } :=
        (Option.some.inj hd).symm
      subst hd'
      have hb : inByte r := findHex_inByte text.data r hh
      refine ⟨rfl, ?_, ?_, ?_⟩
      · intro r' hr'
        exact ⟨Option.some.inj hr', hb⟩
      · intro hnone; exact Option.noConfusion hnone
      · intro hnone _; exact Option.noConfusion hnone

/-- Witness for the amended C4 at the palette input `"red"`. -/
theorem C4_descriptor_hex_consistency_w :
    ColorDescriptor.hex
        { name := "red", rgb := (255, 0, 0), hex := hexStr (255, 0, 0) } =
      hexStr (ColorDescriptor.rgb
        { name := "red", rgb := (255, 0, 0), hex := hexStr (255, 0, 0) }) ∧
    inByte (ColorDescriptor.rgb
      { name := "red", rgb := (255, 0, 0), hex := hexStr (255, 0, 0) }) := by
  have h := C4_descriptor_hex_consistency "red"
    { name := "red", rgb := (255, 0, 0), hex := hexStr (255, 0, 0) }
    (by decide)
  exact ⟨h.1, h.2.2.2 (by decide) (by decide)⟩

/-- C8: for every palette entry `(name, rgb)`, extracting from the bare name
returns a descriptor whose rgb equals the palette rgb and whose hex decodes
back (as a `#rrggbb` pattern) to the same rgb. -/
theorem C8_palette_roundtrip :
    ∀ p ∈ COLOR_MAP,
      (extract_color p.1).map ColorDescriptor.rgb = some p.2 ∧
      (extract_color p.1).bind (fun d => parse_hex_color d.hex) =
        some p.2 := by
  decide

/-- Witness for C8 at the first palette entry. -/
theorem C8_palette_roundtrip_w :
    (extract_color "red").map ColorDescriptor.rgb = some (255, 0, 0) ∧
    (extract_color "red").bind (fun d => parse_hex_color d.hex) =
      some (255, 0, 0) :=
  C8_palette_roundtrip ("red", (255, 0, 0)) (by decide)

/-- C9: both extractors are total functions of their input (they are plain
Lean functions here) whose empty-string and absent (`None`) inputs map
immediately to `none`; the absent case goes through the same `if not text`
guard, embedded by the `Option`-lifted entry points. -/
theorem C9_totality :
    extract_color "" = none
    ∧ extract_effect "" = none
    ∧ extract_colorOpt none = none
    ∧ extract_effectOpt none = none
    ∧ (∀ t : String, extract_colorOpt (some t) = extract_color t)
    ∧ (∀ t : String, extract_effectOpt (some t) = extract_effect t) :=
  ⟨by decide, by decide, rfl, rfl, fun _ => rfl, fun _ => rfl⟩

/-- C10 (counterexample): it is not true that every text containing both
"gray" and "grey" yields "gray" — the equal-length name "blue" is listed
earlier in the palette and wins on `"blue gray grey"`. -/
theorem C10_equal_length_cex :
    infixOf "gray".data (lowerStr "blue gray grey").data = true
    ∧ infixOf "grey".data (lowerStr "blue gray grey").data = true
    ∧ extract_color "blue gray grey" =
        some { name := "blue", rgb := (0, 0, 255), hex := "#0000ff" }
    ∧ ("blue" : String) ≠ "gray" := by
  decide

/-- C10 (amended): the length-descending sort is stable over the palette's
insertion order, so "gray" is tried before "grey"; hence a text in which
"gray" occurs and no palette name other than "gray"/"grey" occurs (and
neither hex nor rgb pattern matches) yields name "gray", and "gray" indeed
precedes "grey" in the sorted palette. -/
theorem C10_gray_before_grey :
    (∀ text : String,
      parse_hex_color text = none →
      parse_rgb_color text = none →
      infixOf "gray".data (lowerStr text).data = true →
      (∀ p ∈ sortedColors, p.1 ≠ "gray" → p.1 ≠ "grey" →
        infixOf p.1.data (lowerStr text).data = false) →
      extract_color text =
        some { name := "gray", rgb := (128, 128, 128),
               hex := hexStr (128, 128, 128) })
    ∧ List.indexOf ("gray", ((128, 128, 128) : Rgb)) sortedColors <
        List.indexOf ("grey", ((128, 128, 128) : Rgb)) sortedColors := by
  refine ⟨?_, by decide⟩
  intro text h1 h2 h3 hno
  have hne : text ≠ "" := by
    intro hx; subst hx
    exact absurd h3 (by decide)
  have hsplit : sortedColors =
      grayPredecessors ++ ("gray", (128, 128, 128)) ::
        [("grey", (128, 128, 128)), ("red", (255, 0, 0))] := by decide
  have hfind : find_color_name text = some ("gray", (128, 128, 128)) := by
    unfold find_color_name
    rw [hsplit]
    refine find?_eq_some_of_split _ _ _ _ ?_ h3
    intro y hy
    refine hno y ?_ ?_ ?_
    · rw [hsplit]; exact List.mem_append_left _ hy
    · exact (by decide : ∀ z ∈ grayPredecessors, z.1 ≠ "gray") y hy
    · exact (by decide : ∀ z ∈ grayPredecessors, z.1 ≠ "grey") y hy
  unfold extract_color
  rw [if_neg hne]
  simp only [h1, h2, hfind]

/-- Witness for the amended C10 at the concrete input
`"make it gray grey"`. -/
theorem C10_gray_before_grey_w :
    extract_color "make it gray grey" =
      some { name := "gray", rgb := (128, 128, 128),
             hex := hexStr (128, 128, 128) } :=
  C10_gray_before_grey.1 "make it gray grey" (by decide) (by decide)
    (by decide) (by decide)

end JacketServer
